import Mathlib

/-!
Verification of the vim-dashboard Python backend (python3/dashboard/).

The relevant functions are embedded shallowly: Python strings become
`List Char` (wrapped in `String` at the API surface), Python `int` becomes
`Int`, Python `float` values that the charts consume become `ℚ` (the chart
claims only involve exact decimal arithmetic), exceptions become
`Except`/`Option`, and the mutable object state of the scheduler and the
connection pool becomes explicit state records.  String literals in error
messages drop the single quotes Python puts around interpolated names, and
are otherwise verbatim.
-/

/-! ## Python string primitives -/

/-- The whitespace class used by `str.strip`, `str.split` and the regex
class `\s` (ASCII range, which is all the dashboard ever feeds them). -/
def isPySpace (c : Char) : Bool :=
  c = ' ' || c = '\t' || c = '\n' || c = '\r' || c = '\x0b' || c = '\x0c'

/-- The regex class `\w` (ASCII range): letters, digits and underscore. -/
def isWordChar (c : Char) : Bool :=
  c.isAlpha || c.isDigit || c = '_'

/-- `str.strip()` on a list of characters. -/
def pyStrip (l : List Char) : List Char :=
  ((l.dropWhile isPySpace).reverse.dropWhile isPySpace).reverse

/-- `str.lower()` (ASCII). -/
def pyLower (l : List Char) : List Char := l.map Char.toLower

/-- `str.upper()` (ASCII). -/
def pyUpper (l : List Char) : List Char := l.map Char.toUpper

/-- Worker for `pyDigitGroup`: `afterSep` is true when the previous
character was an underscore (or at the very start). -/
def pyDigitGroupGo : List Char → Bool → Nat → Option Nat
  | [], afterSep, acc => if afterSep then none else some acc
  | c :: rest, afterSep, acc =>
    if c.isDigit then pyDigitGroupGo rest false (acc * 10 + (c.toNat - '0'.toNat))
    else if c = '_' then
      -- an underscore must follow a digit and be followed by one
      if afterSep then none else pyDigitGroupGo rest true acc
    else none

/-- A run of decimal digits as Python `int()` accepts it: nonempty, with
single underscores allowed between digits (PEP 515), returning its value. -/
def pyDigitGroup : List Char → Option Nat
  | [] => none
  | l => pyDigitGroupGo l true 0

/-- Python `int(s)` on a string: strips whitespace, then an optional sign
and a digit group; `none` models the `ValueError` it raises otherwise. -/
def pyIntParse (l : List Char) : Option Int :=
  match pyStrip l with
  | '+' :: rest => (pyDigitGroup rest).map Int.ofNat
  | '-' :: rest => (pyDigitGroup rest).map (fun n => -(Int.ofNat n))
  | rest => (pyDigitGroup rest).map Int.ofNat

/-- Python `str.split(sep)` for a one-character separator: splits at every
occurrence; the empty string yields one empty item. -/
def pySplitOn (sep : Char) : List Char → List (List Char)
  | [] => [[]]
  | c :: rest =>
    if c = sep then [] :: pySplitOn sep rest
    else match pySplitOn sep rest with
      | [] => [[c]]
      | item :: items => (c :: item) :: items

/-- Python `str.split(sep, 1)`: the text before the first occurrence of
`sep` and, when `sep` occurs, the text after it. -/
def pySplitFirst (sep : Char) : List Char → List Char × Option (List Char)
  | [] => ([], none)
  | c :: rest =>
    if c = sep then ([], some rest)
    else
      let (pre, post) := pySplitFirst sep rest
      (c :: pre, post)

/-! ## utils.py -/

/-- The suffix table of `parse_interval`: `multipliers.get(unit, 1)` with
`multipliers = {s: 1, m: 60, h: 3600}`. -/
def interval_multipliers_get (unit : Char) : Int :=
  if unit = 's' then 1 else if unit = 'm' then 60 else if unit = 'h' then 3600 else 1

/-- `utils.parse_interval`: `""` (and any falsy string) maps to the default
30; otherwise the input is stripped and lowercased, a trailing `s`/`m`/`h`
selects the unit (defaulting to seconds), and an unparseable number falls
back to 30.  `none` models the uncaught `IndexError` Python raises when a
nonempty input strips to the empty string. -/
def parse_interval (s : String) : Option Int :=
  if s.data = [] then some 30
  else
    let t := pyLower (pyStrip s.data)
    match t.getLast? with
    | none => none
    | some last =>
      if last = 's' || last = 'm' || last = 'h' then
        match pyIntParse t.dropLast with
        | some n => some (n * interval_multipliers_get last)
        | none => some 30
      else
        match pyIntParse t with
        | some n => some (n * interval_multipliers_get 's')
        | none => some 30

/-- Python exceptions that the embedded dashboard code raises or catches. -/
inductive PyExc where
  | valueError (msg : String)
  | typeError (msg : String)
  | attributeError (msg : String)
  | connectionError (msg : String)
deriving DecidableEq, Repr

/-- `type(error).__name__` for the embedded exceptions. -/
def PyExc.typeName : PyExc → String
  | .valueError _ => "ValueError"
  | .typeError _ => "TypeError"
  | .attributeError _ => "AttributeError"
  | .connectionError _ => "ConnectionError"

/-- `str(error)` for the embedded exceptions. -/
def PyExc.message : PyExc → String
  | .valueError m => m
  | .typeError m => m
  | .attributeError m => m
  | .connectionError m => m

/-- `utils.format_error_message`: `[{context}] {ErrorType}: {message}`,
or without the bracketed part when the context string is empty. -/
def format_error_message (error : PyExc) (context : String) : String :=
  if context ≠ "" then
    "[" ++ context ++ "] " ++ error.typeName ++ ": " ++ error.message
  else
    error.typeName ++ ": " ++ error.message

/-- C7: `parse_interval` maps `"30s"` to 30, `"5m"` to 300, `"1h"` to 3600,
the bare integer `"45"` to 45, and both `""` and the unparseable `"abc"` to
the default 30; the suffix table multiplies by 1, 60 and 3600 for
`s`, `m`, `h` respectively. -/
theorem C7_parse_interval_cases :
    parse_interval "30s" = some 30 ∧
    parse_interval "5m" = some 300 ∧
    parse_interval "1h" = some 3600 ∧
    parse_interval "45" = some 45 ∧
    parse_interval "" = some 30 ∧
    parse_interval "abc" = some 30 ∧
    interval_multipliers_get 's' = 1 ∧
    interval_multipliers_get 'm' = 60 ∧
    interval_multipliers_get 'h' = 3600 := by
  refine ⟨?_, ?_, ?_, ?_, ?_, ?_, rfl, rfl, rfl⟩ <;> rfl

/-! ## template.py — SQL safety validator -/

/-- The keyword denylist of `SQLTemplateEngine._validate_sql_safety`. -/
def dangerous_keywords : List String :=
  ["DROP", "DELETE", "UPDATE", "INSERT", "ALTER",
   "CREATE", "TRUNCATE", "EXEC", "EXECUTE", "GRANT", "REVOKE"]

/-- One keyword test of the validator: the Python substring test
`f" {keyword} " in f" {sql_upper} "`. -/
def keywordHit (sql : List Char) (kw : String) : Bool :=
  decide ((' ' :: (kw.data ++ [' '])) <:+: (' ' :: (pyUpper sql ++ [' '])))

/-- `\s*\w` after a `;` has been consumed: skip whitespace, then require a
word character (the backtracking search of `re` reaches a word character
exactly when the first non-whitespace character is one). -/
def wordCharAfterWs : List Char → Bool
  | [] => false
  | c :: rest => if isPySpace c then wordCharAfterWs rest else isWordChar c

/-- `re.search` of the injection pattern `;` `\s*` `\w`. -/
def hasStackedStatement : List Char → Bool
  | [] => false
  | c :: rest => (c = ';' && wordCharAfterWs rest) || hasStackedStatement rest

/-- `SQLTemplateEngine._validate_sql_safety`: keyword scan over the
space-padded uppercased text, then the stacked-statement regex; `.error`
models the raised `ValueError`. -/
def validate_sql_safety (sql : String) : Except String Unit :=
  match dangerous_keywords.find? (fun kw => keywordHit sql.data kw) with
  | some kw => .error ("Dangerous SQL keyword detected: " ++ kw)
  | none =>
    if hasStackedStatement sql.data then
      .error "Potentially dangerous SQL pattern detected: ;\\s*\\w"
    else .ok ()

/-! ## template.py — values, parameters and rendering -/

/-- Python values that flow through the template layer and the task
variable layer.  A float is represented by its accepted literal (stripped
and lowercased); the IEEE value itself is never inspected by the claims. -/
inductive VarVal where
  | vstr (s : String)
  | vint (n : Int)
  | vfloat (lit : String)
  | vbool (b : Bool)
  | vnone
  | vlist (l : List String)
  | vmap (m : List (String × String))
deriving DecidableEq, Repr

/-- `type(value).__name__` for the embedded values. -/
def pyTypeName : VarVal → String
  | .vstr _ => "str"
  | .vint _ => "int"
  | .vfloat _ => "float"
  | .vbool _ => "bool"
  | .vnone => "NoneType"
  | .vlist _ => "list"
  | .vmap _ => "dict"

/-- The single-quote character of Python `repr`, kept out of the source
text as a code point. -/
def pyQuoteChar : Char := Char.ofNat 39

/-- Python `repr` of a plain string (no escaping needed by any claim). -/
def pyRepr (s : String) : String := String.mk (pyQuoteChar :: (s.data ++ [pyQuoteChar]))

/-- Python `str(value)` on the embedded values. -/
def pyStrOfVal : VarVal → String
  | .vstr s => s
  | .vint n => toString n
  | .vfloat lit => lit
  | .vbool b => if b then "True" else "False"
  | .vnone => "None"
  | .vlist l => "[" ++ String.intercalate ", " (l.map pyRepr) ++ "]"
  | .vmap m =>
      "\x7b" ++ String.intercalate ", " (m.map (fun kv => pyRepr kv.1 ++ ": " ++ pyRepr kv.2)) ++ "\x7d"

/-- `(pyDigitGroup l).isSome`: a digit run as it may appear inside a float
literal. -/
def floatDigitGroupOk (l : List Char) : Bool := (pyDigitGroup l).isSome

/-- The mantissa of a Python float literal: digits, or digits on either
side of a single dot with at least one digit in total. -/
def floatMantissaOk (l : List Char) : Bool :=
  match pySplitFirst '.' l with
  | (ip, none) => floatDigitGroupOk ip
  | (ip, some fp) =>
    (decide (ip = []) || floatDigitGroupOk ip) &&
    (decide (fp = []) || floatDigitGroupOk fp) &&
    !(decide (ip = []) && decide (fp = []))

/-- The body of a Python float literal after sign removal: `inf`,
`infinity`, `nan`, or a mantissa with an optional signed exponent. -/
def floatBodyOk (l : List Char) : Bool :=
  decide (l = "inf".data) || decide (l = "infinity".data) || decide (l = "nan".data) ||
  (match pySplitFirst 'e' l with
   | (m, none) => floatMantissaOk m
   | (m, some ex) =>
     floatMantissaOk m &&
     (match ex with
      | '+' :: r => floatDigitGroupOk r
      | '-' :: r => floatDigitGroupOk r
      | r => floatDigitGroupOk r))

/-- Python `float(s)` on a string: `some` of the stripped lowercased
literal when accepted, `none` for the raised `ValueError`. -/
def pyFloatParse (s : List Char) : Option String :=
  let t := pyLower (pyStrip s)
  let core := match t with
    | '+' :: r => r
    | '-' :: r => r
    | r => r
  if floatBodyOk core then some (String.mk t) else none

/-- A parameter definition as stored by `ParameterManager.define_parameter`. -/
structure ParamDef where
  type : String
  default : Option VarVal
  description : String
  required : Bool
deriving DecidableEq, Repr

/-- Assignment into a Python dict modelled as an insertion-ordered
association list: an existing key keeps its position and takes the new
value, a new key is appended. -/
def dictSet {α : Type} (m : List (String × α)) (k : String) (v : α) : List (String × α) :=
  if m.any (fun kv => kv.1 = k) then
    m.map (fun kv => if kv.1 = k then (k, v) else kv)
  else m ++ [(k, v)]

/-- Python `dict.get(k)` on an association list with unique keys. -/
def dictGet {α : Type} (m : List (String × α)) (k : String) : Option α :=
  (m.find? (fun kv => kv.1 = k)).map (fun kv => kv.2)

/-- `ParameterManager._validate_parameter_type`.  Note that a Python bool
is an instance of `int`, so it passes the `number` check unchanged. -/
def validate_parameter_type (name : String) (value : VarVal) (expected : String) :
    Except String VarVal :=
  if expected = "string" then
    match value with
    | .vstr s => .ok (.vstr s)
    | v => .ok (.vstr (pyStrOfVal v))
  else if expected = "number" then
    match value with
    | .vint n => .ok (.vint n)
    | .vfloat f => .ok (.vfloat f)
    | .vbool b => .ok (.vbool b)
    | .vstr s =>
      if '.' ∈ s.data then
        match pyFloatParse s.data with
        | some lit => .ok (.vfloat lit)
        | none => .error ("Parameter " ++ name ++ " must be a number, got str")
      else
        match pyIntParse s.data with
        | some n => .ok (.vint n)
        | none => .error ("Parameter " ++ name ++ " must be a number, got str")
    | v => .error ("Parameter " ++ name ++ " must be a number, got " ++ pyTypeName v)
  else if expected = "boolean" then
    match value with
    | .vbool b => .ok (.vbool b)
    | .vstr s =>
      let low := String.mk (pyLower s.data)
      if low = "true" || low = "1" || low = "yes" || low = "on" then .ok (.vbool true)
      else if low = "false" || low = "0" || low = "no" || low = "off" then .ok (.vbool false)
      else .error ("Parameter " ++ name ++ " must be a boolean, got str")
    | v => .error ("Parameter " ++ name ++ " must be a boolean, got " ++ pyTypeName v)
  else if expected = "list" then
    match value with
    | .vlist l => .ok (.vlist l)
    | v => .error ("Parameter " ++ name ++ " must be a list, got " ++ pyTypeName v)
  else if expected = "map" then
    match value with
    | .vmap m => .ok (.vmap m)
    | v => .error ("Parameter " ++ name ++ " must be a map/dict, got " ++ pyTypeName v)
  else .error ("Unknown parameter type: " ++ expected)

/-- The parameter loop of `ParameterManager.validate_and_prepare_context`:
each declared parameter takes the supplied value, else its default after
the required check, is type-validated when not `None`, and is always placed
in the context (`None` included). -/
def processParams (args : List (String × VarVal)) :
    List (String × ParamDef) → (String → Option VarVal) →
    Except String (String → Option VarVal)
  | [], ctx => .ok ctx
  | (name, pd) :: rest, ctx =>
    match dictGet args name with
    | none =>
      if pd.required then .error ("Required parameter " ++ name ++ " is missing")
      else
        match pd.default with
        | none => processParams args rest (fun u => if u = name then some .vnone else ctx u)
        | some dv =>
          match validate_parameter_type name dv pd.type with
          | .error e => .error e
          | .ok v => processParams args rest (fun u => if u = name then some v else ctx u)
    | some value =>
      match validate_parameter_type name value pd.type with
      | .error e => .error e
      | .ok v => processParams args rest (fun u => if u = name then some v else ctx u)

/-- `ParameterManager.validate_and_prepare_context`: the declared-parameter
loop, then every argument whose name is not a declared parameter is added
to the context as-is. -/
def validate_and_prepare_context (params : List (String × ParamDef))
    (args : List (String × VarVal)) : Except String (String → Option VarVal) :=
  match processParams args params (fun _ => none) with
  | .error e => .error e
  | .ok ctx =>
    .ok (args.foldl
      (fun c kv =>
        if params.any (fun p => p.1 = kv.1) then c
        else fun u => if u = kv.1 then some kv.2 else c u)
      ctx)

/-! ## template.py — cleanup and rendering pipeline -/

/-- Worker for `clean_sql`: `re.sub` of `\s+` with a single space;
`prevSpace` records whether the previous character was part of a
whitespace run already replaced. -/
def collapseWsAux : Bool → List Char → List Char
  | _, [] => []
  | prevSpace, c :: rest =>
    if isPySpace c then
      if prevSpace then collapseWsAux true rest
      else ' ' :: collapseWsAux true rest
    else c :: collapseWsAux false rest

/-- `SQLTemplateEngine._clean_sql`: strip, collapse whitespace runs to one
space, then re-join the stripped nonempty lines. -/
def clean_sql (l : List Char) : List Char :=
  let s1 := collapseWsAux false (pyStrip l)
  List.intercalate ['\n'] (((pySplitOn '\n' s1).map pyStrip).filter (fun x => !x.isEmpty))

/-- A segment of a parsed SQL template: literal text or a `{{ name }}`
variable reference. -/
inductive TmplSeg where
  | lit (s : String)
  | var (name : String)
deriving DecidableEq, Repr

/-- Modelled from the spec: the Jinja2 rendering step (the library itself
is not part of the repository) restricted to literal and variable
segments, with the `StrictUndefined` configuration of
`SQLTemplateEngine.__init__` — a variable missing from the context raises
`UndefinedError`, a present `None` renders as its string form. -/
def renderSegs (ctx : String → Option VarVal) : List TmplSeg → Except String String
  | [] => .ok ""
  | .lit s :: rest => (renderSegs ctx rest).map (fun r => s ++ r)
  | .var n :: rest =>
    match ctx n with
    | some v => (renderSegs ctx rest).map (fun r => pyStrOfVal v ++ r)
    | none => .error (n ++ " is undefined")

/-- `SQLTemplateEngine.render_template`: render, clean up whitespace, then
validate SQL safety. -/
def render_template (tmpl : List TmplSeg) (ctx : String → Option VarVal) :
    Except String String :=
  match renderSegs ctx tmpl with
  | .error e => .error e
  | .ok s =>
    let cleaned := String.mk (clean_sql s.data)
    match validate_sql_safety cleaned with
    | .error e => .error e
    | .ok _ => .ok cleaned

/-- `SQLTemplateProcessor.render_sql`: validate and prepare the context,
then render the template. -/
def render_sql (params : List (String × ParamDef)) (args : List (String × VarVal))
    (tmpl : List TmplSeg) : Except String String :=
  match validate_and_prepare_context params args with
  | .error e => .error e
  | .ok ctx => render_template tmpl ctx

/-! ## C2 — the SQL safety validator -/

theorem isPySpace_eq_false_of_wordChar {c : Char} (h : isWordChar c = true) :
    isPySpace c = false := by
  cases hs : isPySpace c
  · rfl
  · exfalso
    simp only [isPySpace, Bool.or_eq_true, decide_eq_true_eq] at hs
    rcases hs with ((((h1 | h1) | h1) | h1) | h1) | h1 <;> subst h1 <;> simp [isWordChar] at h

theorem wordCharAfterWs_append (ws : List Char) (c : Char) (s : List Char)
    (hws : ∀ x ∈ ws, isPySpace x = true) (hc : isWordChar c = true) :
    wordCharAfterWs (ws ++ c :: s) = true := by
  induction ws with
  | nil => simp [wordCharAfterWs, isPySpace_eq_false_of_wordChar hc, hc]
  | cons a t ih =>
    have ha : isPySpace a = true := hws a (by simp)
    simpa [wordCharAfterWs, ha] using ih (fun x hx => hws x (by simp [hx]))

theorem hasStackedStatement_append (p ws s : List Char) (c : Char)
    (hws : ∀ x ∈ ws, isPySpace x = true) (hc : isWordChar c = true) :
    hasStackedStatement (p ++ ';' :: (ws ++ c :: s)) = true := by
  induction p with
  | nil =>
    simp [hasStackedStatement, wordCharAfterWs_append ws c s hws hc]
  | cons a t ih =>
    simp [hasStackedStatement, ih]

/-- C2: the post-render safety validator rejects every rendered string in
which one of the eleven dangerous keywords occurs as a space-delimited
token of the space-padded uppercased text; a keyword embedded in a longer
identifier (`UPDATED_AT`) is not flagged; and it rejects every string in
which a `;` is followed, after optional whitespace, by a word character. -/
theorem C2_sql_safety_validator :
    (∀ (sql : String) (kw : String), kw ∈ dangerous_keywords →
        (' ' :: (kw.data ++ [' '])) <:+: (' ' :: (pyUpper sql.data ++ [' '])) →
        ∃ e, validate_sql_safety sql = .error e) ∧
    validate_sql_safety "SELECT UPDATED_AT FROM T1" = .ok () ∧
    (∀ (sql : String) (p ws s : List Char) (c : Char),
        sql.data = p ++ ';' :: (ws ++ c :: s) →
        (∀ x ∈ ws, isPySpace x = true) → isWordChar c = true →
        ∃ e, validate_sql_safety sql = .error e) := by
  refine ⟨?_, by rfl, ?_⟩
  · intro sql kw hmem hinf
    have hhit : keywordHit sql.data kw = true := by
      simpa [keywordHit] using hinf
    have hsome : (dangerous_keywords.find? (fun k => keywordHit sql.data k)).isSome := by
      rw [List.find?_isSome]
      exact ⟨kw, hmem, hhit⟩
    obtain ⟨kw', hkw'⟩ := Option.isSome_iff_exists.mp hsome
    exact ⟨"Dangerous SQL keyword detected: " ++ kw', by simp [validate_sql_safety, hkw']⟩
  · intro sql p ws s c hdata hws hc
    cases hfind : dangerous_keywords.find? (fun k => keywordHit sql.data k) with
    | some kw =>
      exact ⟨"Dangerous SQL keyword detected: " ++ kw, by simp [validate_sql_safety, hfind]⟩
    | none =>
      have hst : hasStackedStatement sql.data = true := by
        rw [hdata]; exact hasStackedStatement_append p ws s c hws hc
      exact ⟨"Potentially dangerous SQL pattern detected: ;\\s*\\w",
        by simp [validate_sql_safety, hfind, hst]⟩


/-! ## C4 — the parameter/rendering pipeline -/

theorem processParams_append (args : List (String × VarVal))
    (l₁ l₂ : List (String × ParamDef)) (ctx : String → Option VarVal) :
    processParams args (l₁ ++ l₂) ctx =
      match processParams args l₁ ctx with
      | .error e => .error e
      | .ok c => processParams args l₂ c := by
  induction l₁ generalizing ctx with
  | nil => simp [processParams]
  | cons hd tl ih =>
    obtain ⟨name, pd⟩ := hd
    simp only [List.cons_append, processParams]
    cases hget : dictGet args name with
    | none =>
      cases hreq : pd.required with
      | true => simp
      | false =>
        simp only [Bool.false_eq_true, if_false]
        cases hdef : pd.default with
        | none => exact ih _
        | some dv =>
          rcases hv : validate_parameter_type name dv pd.type with e | v <;> simp [hv, ih]
    | some value =>
      rcases hv : validate_parameter_type name value pd.type with e | v <;> simp [hv, ih]

theorem processParams_ctx_of_not_mem (args : List (String × VarVal))
    (l : List (String × ParamDef)) (ctx c : String → Option VarVal) (n : String)
    (hn : n ∉ l.map Prod.fst) (h : processParams args l ctx = .ok c) :
    c n = ctx n := by
  induction l generalizing ctx with
  | nil => simp [processParams] at h; simp [h]
  | cons hd tl ih =>
    obtain ⟨name, pd⟩ := hd
    have hne : n ≠ name := by
      intro he; exact hn (by simp [he])
    have htl : n ∉ tl.map Prod.fst := fun hm => hn (by simp [hm])
    simp only [processParams] at h
    cases hget : dictGet args name with
    | none =>
      simp only [hget] at h
      cases hreq : pd.required with
      | true => simp [hreq] at h
      | false =>
        simp only [hreq, Bool.false_eq_true, if_false] at h
        cases hdef : pd.default with
        | none =>
          simp only [hdef] at h
          have := ih _ htl h
          simpa [hne] using this
        | some dv =>
          simp only [hdef] at h
          cases hv : validate_parameter_type name dv pd.type with
          | error e => simp [hv] at h
          | ok v =>
            simp only [hv] at h
            have := ih _ htl h
            simpa [hne] using this
    | some value =>
      simp only [hget] at h
      cases hv : validate_parameter_type name value pd.type with
      | error e => simp [hv] at h
      | ok v =>
        simp only [hv] at h
        have := ih _ htl h
        simpa [hne] using this

/-- The extra-argument loop of `validate_and_prepare_context` does not
touch a name that is a declared parameter. -/
theorem extraArgsFold_of_declared (params : List (String × ParamDef))
    (args : List (String × VarVal)) (c : String → Option VarVal) (n : String)
    (hn : params.any (fun p => p.1 = n) = true) :
    (args.foldl
      (fun c kv =>
        if params.any (fun p => p.1 = kv.1) then c
        else fun u => if u = kv.1 then some kv.2 else c u)
      c) n = c n := by
  induction args generalizing c with
  | nil => rfl
  | cons kv rest ih =>
    simp only [List.foldl]
    by_cases h : params.any (fun p => p.1 = kv.1) = true
    · simp only [h, if_true]; exact ih c
    · have hne : n ≠ kv.1 := by
        intro he; exact h (he ▸ hn)
      simp only [h, if_false]
      rw [ih]
      simp [hne]

/-- The extra-argument loop does not touch a name that is not among the
supplied arguments. -/
theorem extraArgsFold_of_not_arg (params : List (String × ParamDef))
    (args : List (String × VarVal)) (c : String → Option VarVal) (n : String)
    (hn : n ∉ args.map Prod.fst) :
    (args.foldl
      (fun c kv =>
        if params.any (fun p => p.1 = kv.1) then c
        else fun u => if u = kv.1 then some kv.2 else c u)
      c) n = c n := by
  induction args generalizing c with
  | nil => rfl
  | cons kv rest ih =>
    have hne : n ≠ kv.1 := by
      intro he; exact hn (by simp [he])
    have hrest : n ∉ rest.map Prod.fst := fun hm => hn (by simp [hm])
    simp only [List.foldl]
    by_cases h : params.any (fun p => p.1 = kv.1) = true
    · simp only [h, if_true]; exact ih c hrest
    · simp only [h, if_false]
      rw [ih _ hrest]
      simp [hne]

/-- A context produced by `validate_and_prepare_context` has no entry for a
name that is neither declared nor supplied. -/
theorem vapc_none_of_undeclared (params : List (String × ParamDef))
    (args : List (String × VarVal)) (ctx : String → Option VarVal) (n : String)
    (h : validate_and_prepare_context params args = .ok ctx)
    (hp : n ∉ params.map Prod.fst) (ha : n ∉ args.map Prod.fst) :
    ctx n = none := by
  simp only [validate_and_prepare_context] at h
  cases hpp : processParams args params (fun _ => none) with
  | error e => simp [hpp] at h
  | ok c0 =>
    simp only [hpp, Except.ok.injEq] at h
    subst h
    rw [extraArgsFold_of_not_arg params args c0 n ha]
    exact processParams_ctx_of_not_mem args params _ c0 n hp hpp

/-- A template whose segments reference a name missing from the context
fails to render (`StrictUndefined`). -/
theorem renderSegs_undefined (segs : List TmplSeg) (ctx : String → Option VarVal)
    (n : String) (hmem : TmplSeg.var n ∈ segs) (hctx : ctx n = none) :
    ∃ m, renderSegs ctx segs = .error (m ++ " is undefined") := by
  induction segs with
  | nil => simp at hmem
  | cons hd tl ih =>
    cases hd with
    | lit s =>
      have hmem' : TmplSeg.var n ∈ tl := by
        rcases List.mem_cons.mp hmem with h | h
        · exact absurd h (by simp)
        · exact h
      obtain ⟨m, hm⟩ := ih hmem'
      exact ⟨m, by simp [renderSegs, hm, Except.map]⟩
    | var v =>
      cases hv : ctx v with
      | none => exact ⟨v, by simp [renderSegs, hv]⟩
      | some val =>
        have hne : TmplSeg.var n ≠ TmplSeg.var v := by
          intro he
          cases he
          rw [hctx] at hv
          exact Option.noConfusion hv
        have hmem' : TmplSeg.var n ∈ tl := by
          rcases List.mem_cons.mp hmem with h | h
          · exact absurd h hne
          · exact h
        obtain ⟨m, hm⟩ := ih hmem'
        exact ⟨m, by simp [renderSegs, hv, hm, Except.map]⟩

/-- C4: a required parameter with no supplied value fails validation with a
missing-required error before any template is rendered; an optional
parameter with no value and no default is placed in the context as an
explicit `None`; rendering a reference to a name neither declared nor
supplied fails with an undefined-variable error; and a declared default
with no runtime override renders into the query. -/
theorem C4_parameter_pipeline :
    (∀ (pre post : List (String × ParamDef)) (name : String) (pd : ParamDef)
        (args : List (String × VarVal)) (c1 : String → Option VarVal)
        (tmpl : List TmplSeg),
        pd.required = true → dictGet args name = none →
        processParams args pre (fun _ => none) = .ok c1 →
        render_sql (pre ++ (name, pd) :: post) args tmpl =
          .error ("Required parameter " ++ name ++ " is missing")) ∧
    (∀ (pre post : List (String × ParamDef)) (name : String) (pd : ParamDef)
        (args : List (String × VarVal)) (ctx : String → Option VarVal),
        pd.required = false → pd.default = none → dictGet args name = none →
        name ∉ post.map Prod.fst →
        validate_and_prepare_context (pre ++ (name, pd) :: post) args = .ok ctx →
        ctx name = some .vnone) ∧
    (∀ (params : List (String × ParamDef)) (args : List (String × VarVal))
        (ctx : String → Option VarVal) (tmpl : List TmplSeg) (n : String),
        validate_and_prepare_context params args = .ok ctx →
        TmplSeg.var n ∈ tmpl →
        n ∉ params.map Prod.fst → n ∉ args.map Prod.fst →
        ∃ m, render_sql params args tmpl = .error (m ++ " is undefined")) ∧
    render_sql
      [("id", { type := "number", default := some (.vint 42),
                description := "", required := false })]
      []
      [.lit "SELECT a FROM t WHERE id = ", .var "id"]
      = .ok "SELECT a FROM t WHERE id = 42" := by
  refine ⟨?_, ?_, ?_, by rfl⟩
  · intro pre post name pd args c1 tmpl hreq hget hpre
    have hstep : processParams args (pre ++ (name, pd) :: post) (fun _ => none) =
        .error ("Required parameter " ++ name ++ " is missing") := by
      rw [processParams_append, hpre]
      simp [processParams, hget, hreq]
    simp [render_sql, validate_and_prepare_context, hstep]
  · intro pre post name pd args ctx hreq hdef hget hpost h
    simp only [validate_and_prepare_context] at h
    cases hpp : processParams args (pre ++ (name, pd) :: post) (fun _ => none) with
    | error e => simp [hpp] at h
    | ok c0 =>
      simp only [hpp, Except.ok.injEq] at h
      subst h
      rw [processParams_append] at hpp
      cases hpre : processParams args pre (fun _ => none) with
      | error e => simp [hpre] at hpp
      | ok c1 =>
        simp only [hpre, processParams, hget, hreq, hdef, Bool.false_eq_true,
          if_false] at hpp
        have hc0 : c0 name = some .vnone := by
          rw [processParams_ctx_of_not_mem args post _ c0 name hpost hpp]
          simp
        rw [extraArgsFold_of_declared (pre ++ (name, pd) :: post) args c0 name
          (by simp)]
        exact hc0
  · intro params args ctx tmpl n h hmem hp ha
    have hctx : ctx n = none := vapc_none_of_undeclared params args ctx n h hp ha
    obtain ⟨m, hm⟩ := renderSegs_undefined tmpl ctx n hmem hctx
    exact ⟨m, by simp [render_sql, h, render_template, hm]⟩

/-! ## database/base.py — the connection pool

A connection object is identified by a `Nat`; its mutable `is_connected`
flag lives in the pool state's `connected` map.  What `connect()` does on a
given object (driver behaviour, outside this repository) is an oracle in
`PoolEnv`, as is the `DatabaseManager.create_connection` factory. -/

/-- Outcome of calling `connect()` on a connection object: it returns
`True`, returns a falsy value, or raises. -/
inductive ConnectRes where
  | ok
  | no
  | raise
deriving DecidableEq, Repr

/-- The environment of one `get_connection` call: what `connect()` does on
each connection object, and what the connection factory produces (`.error`
models an exception inside `DatabaseManager.create_connection`). -/
structure PoolEnv where
  connectRes : Nat → ConnectRes
  create : Except Unit Nat

/-- The state of `ConnectionPool`: `pools` is `self._pools` (url to list of
connection objects), `active` is `self._active_connections`, `connected`
holds each connection object's `is_connected` flag, and `maxConnections`
is `self.max_connections` (5 for the module-level pool). -/
@[ext]
structure PoolState where
  pools : String → Option (List Nat)
  active : String → Option Int
  connected : Nat → Bool
  maxConnections : Int

/-- The reuse loop of `get_connection`: CPython list iteration by index
over a list that `pool.remove(conn)` may shrink — after a removal the next
index stays, which skips the element that followed the removed one.  An
idle (`not conn.is_connected`) entry is reconnected: success returns it,
a falsy return moves on, an exception removes it from the list.  `fuel`
bounds the iteration count; every step shrinks `l.length - k`, so the
initial list length (the caller passes it) is always enough. -/
def reuseLoop (env : PoolEnv) (connected : Nat → Bool) :
    Nat → List Nat → Nat → Option Nat × List Nat
  | 0, l, _ => (none, l)
  | fuel + 1, l, k =>
    if h : k < l.length then
      let cid := l.get ⟨k, h⟩
      if connected cid then reuseLoop env connected fuel l (k + 1)
      else
        match env.connectRes cid with
        | .ok => (some cid, l)
        | .no => reuseLoop env connected fuel l (k + 1)
        | .raise => reuseLoop env connected fuel (l.eraseIdx k) k
    else (none, l)

/-- Write one url's entry of a string-keyed dict. -/
def mapSet {α : Type} (f : String → Option α) (k : String) (v : α) :
    String → Option α :=
  fun u => if u = k then some v else f u

/-- The first step of `get_connection`: a url not seen before gets an
empty pool list and a zero active count. -/
def ensure_url (url : String) (st : PoolState) : PoolState :=
  match st.pools url with
  | none =>
    { st with pools := mapSet st.pools url [], active := mapSet st.active url 0 }
  | some _ => st

/-- The body of `get_connection` after the url's entries exist: scan the
pool for a reusable idle connection, else create a new one while the
active count is below the cap, else fail with the pool-limit error. -/
def get_connection_core (env : PoolEnv) (url : String) (st : PoolState) :
    Except String Nat × PoolState :=
  -- after ensure_url both entries exist for the url, so the getD defaults
  -- never fire (Python would raise KeyError on a missing key)
  let pool := (st.pools url).getD []
  match reuseLoop env st.connected pool.length pool 0 with
  | (some cid, pool2) =>
    (.ok cid,
     { st with pools := mapSet st.pools url pool2,
               active := mapSet st.active url ((st.active url).getD 0 + 1),
               connected := fun i => if i = cid then true else st.connected i })
  | (none, pool2) =>
    let st := { st with pools := mapSet st.pools url pool2 }
    if (st.active url).getD 0 < st.maxConnections then
      match env.create with
      | .error _ =>
        (.error "Failed to create database connection", st)
      | .ok fresh =>
        -- the constructor makes the new object with is_connected = False
        let st := { st with connected := fun i => if i = fresh then false else st.connected i }
        match env.connectRes fresh with
        | .ok =>
          (.ok fresh,
           { st with pools := mapSet st.pools url (pool2 ++ [fresh]),
                     active := mapSet st.active url ((st.active url).getD 0 + 1),
                     connected := fun i => if i = fresh then true else st.connected i })
        | .no => (.error ("Connection pool limit reached for " ++ url), st)
        | .raise => (.error "Failed to create database connection", st)
    else
      (.error ("Connection pool limit reached for " ++ url), st)

/-- `ConnectionPool.get_connection`: ensure the url's entries exist, then
run the scan/create/fail body. -/
def get_connection (env : PoolEnv) (url : String) (st : PoolState) :
    Except String Nat × PoolState :=
  get_connection_core env url (ensure_url url st)

/-- `ConnectionPool.return_connection`: decrement the url's active counter,
floored at 0; the connection object itself is untouched. -/
def return_connection (url : String) (_cid : Nat) (st : PoolState) : PoolState :=
  match st.active url with
  | some n => { st with active := mapSet st.active url (max 0 (n - 1)) }
  | none => st

/-- `ConnectionPool.close_all_connections(url)`: disconnect every pooled
connection of the url and reset its entries. -/
def close_all_connections (url : String) (st : PoolState) : PoolState :=
  match st.pools url with
  | some l =>
    { st with connected := fun i => if i ∈ l then false else st.connected i,
              pools := mapSet st.pools url [],
              active := mapSet st.active url 0 }
  | none => st

/-! ## C3 and C5 — pool behaviour lemmas -/

/-- The reuse scan finds nothing in a pool whose connections are all still
flagged connected, and leaves the list unchanged. -/
theorem reuseLoop_all_connected (env : PoolEnv) (connected : Nat → Bool) :
    ∀ (fuel k : Nat) (l : List Nat),
    (∀ cid ∈ l, connected cid = true) →
    reuseLoop env connected fuel l k = (none, l)
  | 0, _, l, _ => rfl
  | fuel + 1, k, l, h => by
    rw [reuseLoop]
    by_cases hk : k < l.length
    · have hc : connected (l.get ⟨k, hk⟩) = true := h _ (l.get_mem k hk)
      simp only [hk, dite_true, dif_pos, hc, if_true]
      exact reuseLoop_all_connected env connected fuel (k + 1) l h
    · simp [hk]

/-- With the url present, no idle pooled connection and the active count at
or above the cap, `get_connection` fails with the pool-limit error and
leaves the state unchanged. -/
theorem get_connection_exhausted (env : PoolEnv) (url : String) (st : PoolState)
    (l : List Nat) (hpool : st.pools url = some l)
    (hconn : ∀ cid ∈ l, st.connected cid = true)
    (hfull : ¬ ((st.active url).getD 0 < st.maxConnections)) :
    get_connection env url st =
      (.error ("Connection pool limit reached for " ++ url), st) := by
  have hloop := reuseLoop_all_connected env st.connected l.length 0 l hconn
  have hmap : mapSet st.pools url l = st.pools := by
    funext u
    by_cases hu : u = url
    · subst hu; simp [mapSet, hpool]
    · simp [mapSet, hu]
  have hens : ensure_url url st = st := by simp [ensure_url, hpool]
  simp only [get_connection, hens, get_connection_core, hpool, Option.getD_some, hloop, hmap]
  simp [hfull]

/-- With the url present, no idle pooled connection, the active count below
the cap and a fresh connection that creates and connects successfully,
`get_connection` appends the fresh connection and returns it. -/
theorem get_connection_creates_new (env : PoolEnv) (url : String) (st : PoolState)
    (l : List Nat) (fresh : Nat) (hpool : st.pools url = some l)
    (hconn : ∀ cid ∈ l, st.connected cid = true)
    (hroom : (st.active url).getD 0 < st.maxConnections)
    (hcreate : env.create = .ok fresh) (hres : env.connectRes fresh = .ok) :
    (get_connection env url st).1 = .ok fresh ∧
    ((get_connection env url st).2).pools url = some (l ++ [fresh]) := by
  have hloop := reuseLoop_all_connected env st.connected l.length 0 l hconn
  have hmap : mapSet st.pools url l = st.pools := by
    funext u
    by_cases hu : u = url
    · subst hu; simp [mapSet, hpool]
    · simp [mapSet, hu]
  have hens : ensure_url url st = st := by simp [ensure_url, hpool]
  simp only [get_connection, hens, get_connection_core, hpool, Option.getD_some, hloop, hmap]
  simp [hroom, hcreate, hres, mapSet, hpool]

/-- C3: with the cap of 5 and 5 connections counted active for a url and
none of its pooled connections idle, `get_connection` fails at once with
the pool-limit error and does not change the state; `return_connection`
sets the counter to `max 0 (n-1)`, so it never drops below 0; and after one
`return_connection` a retried `get_connection` succeeds (with a fresh
connection that creates and connects). -/
theorem C3_pool_exhaustion_and_retry :
    (∀ (env : PoolEnv) (url : String) (st : PoolState) (l : List Nat),
        st.maxConnections = 5 → st.pools url = some l → st.active url = some 5 →
        (∀ cid ∈ l, st.connected cid = true) →
        get_connection env url st =
          (.error ("Connection pool limit reached for " ++ url), st)) ∧
    (∀ (url : String) (cid : Nat) (st : PoolState) (n : Int),
        st.active url = some n →
        (return_connection url cid st).active url = some (max 0 (n - 1)) ∧
        (∀ (u : String) (m : Int), (return_connection url cid st).active u = some m →
          (∀ (u' : String) (m' : Int), st.active u' = some m' → 0 ≤ m') → 0 ≤ m)) ∧
    (∀ (env : PoolEnv) (url : String) (st : PoolState) (l : List Nat)
        (cid fresh : Nat),
        st.maxConnections = 5 → st.pools url = some l → st.active url = some 5 →
        (∀ c ∈ l, st.connected c = true) →
        env.create = .ok fresh → env.connectRes fresh = .ok →
        (get_connection env url (return_connection url cid st)).1 = .ok fresh) := by
  refine ⟨?_, ?_, ?_⟩
  · intro env url st l hmax hpool hact hconn
    exact get_connection_exhausted env url st l hpool hconn
      (by rw [hact, hmax]; simp)
  · intro url cid st n hact
    constructor
    · simp [return_connection, hact, mapSet]
    · intro u m hm hinv
      simp only [return_connection, hact] at hm
      by_cases hu : u = url
      · subst hu
        simp [mapSet] at hm
        exact hm ▸ le_max_left 0 (n - 1)
      · simp only [mapSet, hu, if_false] at hm
        exact hinv u m hm
  · intro env url st l cid fresh hmax hpool hact hconn hcreate hres
    have hpool' : (return_connection url cid st).pools url = some l := by
      simp [return_connection, hact, hpool]
    have hconn' : ∀ c ∈ l, (return_connection url cid st).connected c = true := by
      simpa [return_connection, hact] using hconn
    have hroom : ((return_connection url cid st).active url).getD 0 <
        (return_connection url cid st).maxConnections := by
      simp [return_connection, hact, mapSet, hmax]
    have hcre' : env.create = .ok fresh := hcreate
    exact (get_connection_creates_new env url (return_connection url cid st) l fresh
      hpool' hconn' hroom hcre' hres).1

/-- Environment for the C5 scenario: every `connect()` succeeds and the
factory would produce the fresh connection object 2. -/
def c5Env : PoolEnv := { connectRes := fun _ => .ok, create := .ok 2 }

/-- Pool state for the C5 scenario: url `db` holds the single connection
object 1, currently counted active and flagged connected. -/
def c5State : PoolState :=
  { pools := fun u => if u = "db" then some [1] else none,
    active := fun u => if u = "db" then some 1 else none,
    connected := fun i => i == 1,
    maxConnections := 5 }

/-- C5 counterexample: after `return_connection` hands connection 1 back,
a subsequent `get_connection` does NOT reuse it — it returns the newly
created connection 2 and appends it to the pool, because the returned
connection is still flagged connected and the reuse scan only considers
idle entries. -/
theorem C5_counterexample :
    c5State.pools "db" = some [1] ∧
    (get_connection c5Env "db" (return_connection "db" 1 c5State)).1 =
      .ok 2 ∧
    (2 : Nat) ∉ ([1] : List Nat) ∧
    ((get_connection c5Env "db" (return_connection "db" 1 c5State)).2).pools "db" =
      some [1, 2] := by
  refine ⟨rfl, rfl, by decide, rfl⟩


/-- `get_connection_core` never flips a connection's flag from connected
to disconnected, provided the factory only returns objects whose flag is
not yet set (Python guarantees this by object identity: a new object
starts with `is_connected = False`). -/
theorem get_connection_core_keeps_connected (env : PoolEnv) (url : String)
    (st : PoolState) (i : Nat)
    (hfresh : ∀ f, env.create = .ok f → st.connected f = false)
    (hi : st.connected i = true) :
    ((get_connection_core env url st).2).connected i = true := by
  unfold get_connection_core
  cases hloop : reuseLoop env st.connected ((st.pools url).getD []).length
      ((st.pools url).getD []) 0 with
  | mk found pool2 =>
    cases found with
    | some cid => simp [hloop, hi]
    | none =>
      by_cases hroom : (st.active url).getD 0 < st.maxConnections
      · simp only [hroom, if_true]
        cases hc : env.create with
        | error e => simp [hloop, hroom, hc, hi]
        | ok fresh =>
          have hne : i ≠ fresh := by
            intro he
            rw [he, hfresh fresh hc] at hi
            exact Bool.noConfusion hi
          cases hres : env.connectRes fresh with
          | ok => simp [hloop, hroom, hc, hres, hne, hi]
          | no => simp [hloop, hroom, hc, hres, hne, hi]
          | raise => simp [hloop, hroom, hc, hres, hne, hi]
      · simp [hloop, hroom, hi]

/-- `ensure_url` never touches the connection flags. -/
theorem ensure_url_connected (url : String) (st : PoolState) :
    (ensure_url url st).connected = st.connected := by
  unfold ensure_url
  cases st.pools url <;> rfl

/-- C5 as amended: `return_connection` leaves the pool list and every
connection's flag untouched, so the returned connection stays alive in the
pool and is only disconnected by `close_all_connections`; but because it
is still flagged connected, a later `get_connection` does not reuse it —
the idle scan skips it and a new connection is created and appended while
the count is under the cap. -/
theorem C5_return_keeps_alive_but_unreused :
    (∀ (url : String) (cid : Nat) (st : PoolState),
        (return_connection url cid st).pools = st.pools ∧
        (return_connection url cid st).connected = st.connected) ∧
    (∀ (env : PoolEnv) (url : String) (st : PoolState) (i : Nat),
        (∀ f, env.create = .ok f → st.connected f = false) →
        st.connected i = true →
        ((get_connection env url st).2).connected i = true) ∧
    (∀ (env : PoolEnv) (url : String) (st : PoolState) (l : List Nat) (fresh : Nat),
        st.pools url = some l → (∀ c ∈ l, st.connected c = true) →
        (st.active url).getD 0 < st.maxConnections →
        env.create = .ok fresh → env.connectRes fresh = .ok →
        (get_connection env url st).1 = .ok fresh ∧
        ((get_connection env url st).2).pools url = some (l ++ [fresh])) ∧
    (∀ (url : String) (st : PoolState) (l : List Nat) (cid : Nat),
        st.pools url = some l → cid ∈ l →
        (close_all_connections url st).connected cid = false) := by
  refine ⟨?_, ?_, ?_, ?_⟩
  · intro url cid st
    cases hact : st.active url <;> simp [return_connection, hact]
  · intro env url st i hfresh hi
    unfold get_connection
    refine get_connection_core_keeps_connected env url (ensure_url url st) i ?_ ?_
    · intro f hf
      rw [ensure_url_connected]
      exact hfresh f hf
    · rw [ensure_url_connected]
      exact hi
  · intro env url st l fresh hpool hconn hroom hcreate hres
    exact get_connection_creates_new env url st l fresh hpool hconn hroom hcreate hres
  · intro url st l cid hpool hmem
    simp [close_all_connections, hpool, hmem]

/-! ## scheduler.py — DashboardTask -/

/-- The attribute table of the `DatabaseManager` class as declared in
database/base.py lines 83–121: its class attribute and its five methods.
Python attribute lookup on a `DatabaseManager()` instance (the class
defines no `__init__`, so instances carry no own attributes) falls back to
this table. -/
def DatabaseManager_attrs : List String :=
  ["_connection_classes", "register_connection_class", "create_connection",
   "_extract_scheme", "get_supported_databases", "is_supported"]

/-- The slice of a task's config that `DashboardTask.execute` reads before
it can fail: `config.get("database", \x7b\x7d).get("url")`. -/
structure TaskConfig where
  database_url : Option String

/-- The mutable fields of a `DashboardTask` that `execute` touches; the
temp file is the `temp_file_content` field. -/
structure TaskState where
  is_running : Bool
  error_count : Int
  last_error : Option String
  last_run : ℚ
  temp_file_content : Option String

/-- The try-block of `DashboardTask.execute` up to its first failure: the
URL check, then `self.db_manager.get_connection(db_url)` — an attribute
lookup on the `DatabaseManager` instance, which raises `AttributeError`
when the name is not in the class attribute table.  The remainder of the
block is unreachable (theorem C1) and therefore not modelled. -/
def execute_try (cfg : TaskConfig) : Except PyExc Unit :=
  match cfg.database_url with
  | none => .error (.valueError "Database URL not configured")
  | some u =>
    if u = "" then .error (.valueError "Database URL not configured")
    else if "get_connection" ∈ DatabaseManager_attrs then .ok ()
    else .error (.attributeError "DatabaseManager object has no attribute get_connection")

/-- `DashboardTask.execute`: an already-running task returns `False`
untouched; otherwise the try-block runs, the except-branch counts and
formats the error and writes it to the temp file, and the finally-branch
clears `is_running`. -/
def execute (cfg : TaskConfig) (now : ℚ) (st : TaskState) : Bool × TaskState :=
  if st.is_running then (false, st)
  else
    let st := { st with is_running := true }
    match execute_try cfg with
    | .ok _ =>
      -- the success path (unreachable, theorem C1): status update per lines
      -- 282-285; the chart content written on success is not modelled
      (true, { st with last_run := now, error_count := 0, last_error := none,
                       is_running := false })
    | .error e =>
      (false,
       { st with error_count := st.error_count + 1,
                 last_error := some e.message,
                 temp_file_content := some (format_error_message e "Dashboard Task"),
                 is_running := false })

/-- `DashboardTask.should_run`: against the creation time while the task
has never run (`last_run == 0`), against `last_run` afterwards. -/
def should_run (interval : Int) (creation_time last_run now : ℚ) : Bool :=
  if last_run = 0 then decide ((interval : ℚ) ≤ now - creation_time)
  else decide ((interval : ℚ) ≤ now - last_run)

/-- C1: `DatabaseManager` declares no `get_connection`, so for every task
that is not already running, `execute()` raises inside the try-block and
takes the error branch: it returns `False`, increments `error_count` by 1,
sets `last_error` to a non-empty message, writes the formatted error text
to the temp file, and leaves `is_running` false. -/
theorem C1_execute_always_fails (cfg : TaskConfig) (now : ℚ) (st : TaskState)
    (h : st.is_running = false) :
    "get_connection" ∉ DatabaseManager_attrs ∧
    (execute cfg now st).1 = false ∧
    (execute cfg now st).2.error_count = st.error_count + 1 ∧
    (∃ e : PyExc,
      (execute cfg now st).2.last_error = some e.message ∧
      e.message ≠ "" ∧
      (execute cfg now st).2.temp_file_content =
        some (format_error_message e "Dashboard Task")) ∧
    (execute cfg now st).2.is_running = false := by
  have hattr : "get_connection" ∉ DatabaseManager_attrs := by decide
  have htry : ∃ e : PyExc, execute_try cfg = .error e ∧ e.message ≠ "" := by
    cases hurl : cfg.database_url with
    | none => exact ⟨.valueError "Database URL not configured", by simp [execute_try, hurl], by decide⟩
    | some u =>
      by_cases hu : u = ""
      · exact ⟨.valueError "Database URL not configured",
          by simp [execute_try, hurl, hu], by decide⟩
      · exact ⟨.attributeError "DatabaseManager object has no attribute get_connection",
          by simp [execute_try, hurl, hu, hattr], by decide⟩
  obtain ⟨e, he, hmsg⟩ := htry
  refine ⟨hattr, ?_, ?_, ⟨e, ?_, hmsg, ?_⟩, ?_⟩ <;>
    simp [execute, h, he]

/-- Witness for C1 at a concrete task and config. -/
theorem C1_execute_always_fails_witness :
    (execute ⟨some "mysql://u@h/db"⟩ 0
      { is_running := false, error_count := 3, last_error := none,
        last_run := 0, temp_file_content := none }).1 = false ∧
    (execute ⟨some "mysql://u@h/db"⟩ 0
      { is_running := false, error_count := 3, last_error := none,
        last_run := 0, temp_file_content := none }).2.error_count = 3 + 1 :=
  ⟨(C1_execute_always_fails ⟨some "mysql://u@h/db"⟩ 0
      { is_running := false, error_count := 3, last_error := none,
        last_run := 0, temp_file_content := none } rfl).2.1,
   (C1_execute_always_fails ⟨some "mysql://u@h/db"⟩ 0
      { is_running := false, error_count := 3, last_error := none,
        last_run := 0, temp_file_content := none } rfl).2.2.1⟩

/-- C8: for a positive interval, a never-run task (`last_run == 0`) does
not fire at its creation instant and fires exactly when `interval` seconds
have elapsed since creation; after a run (`last_run ≠ 0`) it fires exactly
when `interval` seconds have elapsed since `last_run`. -/
theorem C8_should_run (interval : Int) (creation_time now last_run : ℚ)
    (hpos : 0 < interval) :
    should_run interval creation_time 0 creation_time = false ∧
    (should_run interval creation_time 0 now = true ↔
      (interval : ℚ) ≤ now - creation_time) ∧
    (last_run ≠ 0 →
      (should_run interval creation_time last_run now = true ↔
        (interval : ℚ) ≤ now - last_run)) := by
  refine ⟨?_, ?_, ?_⟩
  · have h0 : ¬ ((interval : ℚ) ≤ creation_time - creation_time) := by
      simp only [sub_self, not_le]
      exact_mod_cast hpos
    simp [should_run, h0]
    exact_mod_cast hpos
  · simp [should_run]
  · intro hlr
    simp [should_run, hlr]

/-- Witness for C8 with a 30-second interval created at time 5. -/
theorem C8_should_run_witness :
    should_run 30 5 0 5 = false ∧
    (should_run 30 5 0 40 = true ↔ (30 : ℚ) ≤ 40 - 5) :=
  ⟨(C8_should_run 30 5 5 7 (by decide)).1,
   (C8_should_run 30 5 40 7 (by decide)).2.1⟩

/-! ## scheduler.py — runtime variables -/

/-- One entry of `DashboardTask.variables_info`. -/
structure VarInfo where
  type : String
  default_value : Option VarVal
  current_value : Option VarVal
  description : String
deriving DecidableEq, Repr

/-- The variable state of a `DashboardTask`: the runtime override map, the
display metadata, and `last_error`. -/
structure TaskVars where
  runtime_variables : String → Option VarVal
  variables_info : String → Option VarInfo
  last_error : Option String

/-- A Python dict built from a sequence of pairs: later pairs override
earlier values of the same key. -/
def pyDictOfPairs (l : List (String × String)) : List (String × String) :=
  l.foldl (fun m kv => dictSet m kv.1 kv.2) []

/-- The `map` branch of `update_variable`:
`dict(item.split("=", 1) for item in value.split(",") if "=" in item)`. -/
def pyParseMapPairs (l : List Char) : List (String × String) :=
  pyDictOfPairs
    (((pySplitOn ',' l).filter (fun item => '=' ∈ item)).map
      (fun item =>
        let kv := pySplitFirst '=' item
        (String.mk kv.1, String.mk (kv.2.getD []))))

/-- The type-conversion block of `DashboardTask.update_variable` on a
string value: `number` parses an int or (with a dot) a float and can
raise; `boolean` is the membership test
`str(value).lower() in ("true", "1", "yes", "on")`, which never raises;
`list` splits on commas and strips; `map` parses `key=value` pairs;
`string` and any other declared type pass the value through. -/
def coerce_variable_value (var_type : String) (v : String) : Except String VarVal :=
  if var_type = "number" then
    if '.' ∈ v.data then
      match pyFloatParse v.data with
      | some lit => .ok (.vfloat lit)
      | none => .error ("could not convert string to float: " ++ v)
    else
      match pyIntParse v.data with
      | some n => .ok (.vint n)
      | none => .error ("invalid literal for int with base 10: " ++ v)
  else if var_type = "boolean" then
    .ok (.vbool (decide (String.mk (pyLower v.data) ∈
      (["true", "1", "yes", "on"] : List String))))
  else if var_type = "list" then
    .ok (.vlist ((pySplitOn ',' v.data).map (fun item => String.mk (pyStrip item))))
  else if var_type = "map" then
    .ok (.vmap (pyParseMapPairs v.data))
  else .ok (.vstr v)

/-- `DashboardTask.update_variable` on a string value: unknown names fail
without touching anything; a conversion error sets `last_error` and fails;
success stores the converted value in the override map and in the
variable's displayed current value. -/
def update_variable (tv : TaskVars) (name : String) (v : String) : Bool × TaskVars :=
  match tv.variables_info name with
  | none => (false, tv)
  | some info =>
    match coerce_variable_value info.type v with
    | .error e =>
      (false,
       { tv with last_error := some ("Invalid value for variable " ++ name ++ ": " ++ e) })
    | .ok v2 =>
      (true,
       { tv with
         runtime_variables := fun u => if u = name then some v2 else tv.runtime_variables u,
         variables_info := fun u =>
           if u = name then some { info with current_value := some v2 }
           else tv.variables_info u })

/-- A task-variable state whose single variable `flag` is boolean. -/
def c6Vars : TaskVars :=
  { runtime_variables := fun _ => none,
    variables_info := fun u =>
      if u = "flag" then
        some { type := "boolean", default_value := none, current_value := none,
               description := "" }
      else none,
    last_error := none }

/-- C6 counterexample: the parameter-validation layer rejects the boolean
string `banana`, but `update_variable` succeeds on it and stores `False` —
its boolean branch is a membership test, not the validation layer's
coercion, so a string outside both keyword sets is not a failure. -/
theorem C6_counterexample :
    validate_parameter_type "flag" (.vstr "banana") "boolean" =
      .error "Parameter flag must be a boolean, got str" ∧
    (update_variable c6Vars "flag" "banana").1 = true ∧
    (update_variable c6Vars "flag" "banana").2.runtime_variables "flag" =
      some (.vbool false) := by
  refine ⟨by rfl, by rfl, by rfl⟩

/-- The boolean branch of `update_variable` is the plain membership test. -/
theorem coerce_boolean (s : String) :
    coerce_variable_value "boolean" s =
      .ok (.vbool (decide (String.mk (pyLower s.data) ∈
        (["true", "1", "yes", "on"] : List String)))) := by
  unfold coerce_variable_value
  rw [if_neg (by decide), if_pos rfl]

/-- C6 as amended: `update_variable` coerces by the declared type, but its
boolean branch maps the four true-strings (case-insensitively) to true and
every other value to false, never failing — unlike the parameter
validation layer; a conversion error (e.g. a bad number) returns failure
with the override map and display metadata unchanged and `last_error` set;
success stores the converted value in both the override map and the
displayed current value; lists split on commas and trim, maps parse
comma-separated `key=value` pairs, and an unparseable number fails. -/
theorem C6_update_variable_amended :
    (∀ (tv : TaskVars) (name : String) (info : VarInfo) (s : String),
        tv.variables_info name = some info → info.type = "boolean" →
        (update_variable tv name s).1 = true ∧
        (update_variable tv name s).2.runtime_variables name =
          some (.vbool (decide (String.mk (pyLower s.data) ∈
            (["true", "1", "yes", "on"] : List String))))) ∧
    (∀ (tv : TaskVars) (name : String) (info : VarInfo) (s : String) (e : String),
        tv.variables_info name = some info →
        coerce_variable_value info.type s = .error e →
        (update_variable tv name s).1 = false ∧
        (update_variable tv name s).2.runtime_variables = tv.runtime_variables ∧
        (update_variable tv name s).2.variables_info = tv.variables_info ∧
        (update_variable tv name s).2.last_error =
          some ("Invalid value for variable " ++ name ++ ": " ++ e)) ∧
    (∀ (tv : TaskVars) (name : String) (info : VarInfo) (s : String) (v2 : VarVal),
        tv.variables_info name = some info →
        coerce_variable_value info.type s = .ok v2 →
        (update_variable tv name s).1 = true ∧
        (update_variable tv name s).2.runtime_variables name = some v2 ∧
        (update_variable tv name s).2.variables_info name =
          some { info with current_value := some v2 }) ∧
    coerce_variable_value "list" "a, b ,c" = .ok (.vlist ["a", "b", "c"]) ∧
    coerce_variable_value "map" "a=1,b=2" = .ok (.vmap [("a", "1"), ("b", "2")]) ∧
    coerce_variable_value "number" "abc" =
      .error "invalid literal for int with base 10: abc" := by
  refine ⟨?_, ?_, ?_, by rfl, by rfl, by rfl⟩
  · intro tv name info s hinfo htype
    constructor <;> simp [update_variable, hinfo, htype, coerce_boolean]
  · intro tv name info s e hinfo herr
    refine ⟨?_, ?_, ?_, ?_⟩ <;> simp [update_variable, hinfo, herr]
  · intro tv name info s v2 hinfo hok
    refine ⟨?_, ?_, ?_⟩ <;> simp [update_variable, hinfo, hok]

/-! ## charts — sorting

Python `list.sort` is a stable sort; a stable sort's output is determined
by the comparator, so the insertion sort below (which keeps an earlier
element before later ones it ties with) computes the same list. -/

/-- Insert `a` into `l`, placing it before the first element it may
precede (`le a b`). -/
def pyInsert {α : Type} (le : α → α → Bool) (a : α) : List α → List α
  | [] => [a]
  | b :: t => if le a b then a :: b :: t else b :: pyInsert le a t

/-- Stable insertion sort with comparator `le`. -/
def pySort {α : Type} (le : α → α → Bool) : List α → List α
  | [] => []
  | x :: xs => pyInsert le x (pySort le xs)

theorem pyInsert_perm {α : Type} (le : α → α → Bool) (a : α) (l : List α) :
    List.Perm (pyInsert le a l) (a :: l) := by
  induction l with
  | nil => exact List.Perm.refl _
  | cons b t ih =>
    by_cases h : le a b = true
    · simp [pyInsert, h]
    · simp only [pyInsert, h, if_false]
      exact List.Perm.trans (ih.cons b) (List.Perm.swap a b t)

theorem pySort_perm {α : Type} (le : α → α → Bool) (l : List α) :
    List.Perm (pySort le l) l := by
  induction l with
  | nil => exact List.Perm.refl _
  | cons x xs ih =>
    exact List.Perm.trans (pyInsert_perm le x (pySort le xs)) (ih.cons x)

theorem pyInsert_pairwise {α : Type} (le : α → α → Bool)
    (htot : ∀ a b, le a b = false → le b a = true)
    (htrans : ∀ a b c, le a b = true → le b c = true → le a c = true)
    (a : α) (l : List α) (h : l.Pairwise (fun x y => le x y = true)) :
    (pyInsert le a l).Pairwise (fun x y => le x y = true) := by
  induction l with
  | nil => simp [pyInsert]
  | cons b t ih =>
    rcases List.pairwise_cons.mp h with ⟨hb, ht⟩
    by_cases hab : le a b = true
    · simp only [pyInsert, hab, if_true]
      refine List.pairwise_cons.mpr ⟨?_, h⟩
      intro x hx
      rcases List.mem_cons.mp hx with hx | hx
      · exact hx ▸ hab
      · exact htrans a b x hab (hb x hx)
    · simp only [pyInsert, hab, if_false]
      refine List.pairwise_cons.mpr ⟨?_, ih ht⟩
      intro x hx
      have hx' : x = a ∨ x ∈ t :=
        List.mem_cons.mp ((pyInsert_perm le a t).mem_iff.mp hx)
      rcases hx' with hx' | hx'
      · exact hx' ▸ htot a b (by revert hab; cases le a b <;> simp)
      · exact hb x hx'

theorem pySort_pairwise {α : Type} (le : α → α → Bool)
    (htot : ∀ a b, le a b = false → le b a = true)
    (htrans : ∀ a b c, le a b = true → le b c = true → le a c = true)
    (l : List α) : (pySort le l).Pairwise (fun x y => le x y = true) := by
  induction l with
  | nil => simp [pySort]
  | cons x xs ih => exact pyInsert_pairwise le htot htrans x _ ih

/-! ## charts — cell values -/

/-- The mantissa of a float literal as a rational: digits, or digits on
either side of a single dot with at least one digit in total. -/
def pyFloatMantissaRat (m : List Char) : Option ℚ :=
  match pySplitFirst '.' m with
  | (ip, none) => (pyDigitGroup ip).map (fun n => (n : ℚ))
  | ([], some []) => none
  | ([], some fp) =>
    (pyDigitGroup fp).map
      (fun n => (n : ℚ) / (10 : ℚ) ^ (fp.filter Char.isDigit).length)
  | (ip, some []) => (pyDigitGroup ip).map (fun n => (n : ℚ))
  | (ip, some fp) =>
    match pyDigitGroup ip, pyDigitGroup fp with
    | some a, some b =>
      some ((a : ℚ) + (b : ℚ) / (10 : ℚ) ^ (fp.filter Char.isDigit).length)
    | _, _ => none

/-- Python `float(s)` as an exact rational (the chart claims only use
values where binary rounding plays no part).  `inf`, `infinity` and `nan`
have no rational value and do not occur in chart data; they map to `none`
here. -/
def pyFloatRatParse (s : List Char) : Option ℚ :=
  let t := pyLower (pyStrip s)
  let sgn : ℚ := match t with
    | '-' :: _ => -1
    | _ => 1
  let core := match t with
    | '+' :: r => r
    | '-' :: r => r
    | r => r
  match pySplitFirst 'e' core with
  | (m, exOpt) =>
    let eval : Option Int :=
      match exOpt with
      | none => some 0
      | some ('+' :: r) => (pyDigitGroup r).map Int.ofNat
      | some ('-' :: r) => (pyDigitGroup r).map (fun n => -(Int.ofNat n))
      | some r => (pyDigitGroup r).map Int.ofNat
    match pyFloatMantissaRat m, eval with
    | some mv, some e => some (sgn * mv * (10 : ℚ) ^ e)
    | _, _ => none

/-- A result-row cell as the charts see it: a numeric value (ints and
floats both as exact rationals), a string, SQL `NULL`, or a value that
`float()` rejects. -/
inductive CellVal where
  | num (q : ℚ)
  | str (s : String)
  | null
  | bad
deriving DecidableEq, Repr

/-- Python `float(cell)`: numbers pass through, strings are parsed,
`None` and unconvertible values raise (`none`). -/
def cellFloat : CellVal → Option ℚ
  | .num q => some q
  | .str s => pyFloatRatParse s.data
  | .null => none
  | .bad => none

/-- Python `str(cell)` for label columns.  String labels (the case the
charts are used with) are exact; the numeric rendering is Lean's. -/
def cellStr : CellVal → String
  | .str s => s
  | .num q => toString q
  | .null => "None"
  | .bad => ""

/-! ## charts/pie.py — PieChart.render, data part -/

/-- The required-columns check of `PieChart.render` (both columns present
in every row and neither null). -/
def pie_required_columns_ok (valueCol labelCol : String)
    (rows : List (List (String × CellVal))) : Bool :=
  rows.all (fun row =>
    (dictGet row valueCol).isSome && (dictGet row labelCol).isSome &&
    !(decide (dictGet row valueCol = some CellVal.null)) &&
    !(decide (dictGet row labelCol = some CellVal.null)))

/-- The extraction loop of `PieChart.render`: each row's value is
`float(row.get(value_column, 0))` — a conversion failure skips the row —
and only strictly positive values are appended as slices and added to the
running total. -/
def pie_extract (valueCol labelCol : String) :
    List (List (String × CellVal)) → List (String × ℚ) × ℚ
  | [] => ([], 0)
  | row :: rest =>
    let acc := pie_extract valueCol labelCol rest
    match cellFloat ((dictGet row valueCol).getD (.num 0)) with
    | none => acc
    | some v =>
      if 0 < v then
        ((cellStr ((dictGet row labelCol).getD (.str "")), v) :: acc.1, acc.2 + v)
      else acc

/-- `pie_data.sort(key=lambda x: x["value"], reverse=True)`: a stable
descending sort on the value. -/
def pie_sort_desc (l : List (String × ℚ)) : List (String × ℚ) :=
  pySort (fun a b => decide (b.2 ≤ a.2)) l

/-- `percentage = (value / total) * 100` for each slice in order. -/
def pie_percentages (slices : List (String × ℚ)) (total : ℚ) : List ℚ :=
  slices.map (fun s => s.2 / total * 100)

/-! ## C9 — pie chart -/

theorem pie_extract_total_eq_sum (valueCol labelCol : String)
    (rows : List (List (String × CellVal))) :
    (pie_extract valueCol labelCol rows).2 =
      ((pie_extract valueCol labelCol rows).1.map Prod.snd).sum := by
  induction rows with
  | nil => simp [pie_extract]
  | cons row rest ih =>
    simp only [pie_extract]
    cases hv : cellFloat ((dictGet row valueCol).getD (.num 0)) with
    | none => exact ih
    | some v =>
      by_cases hp : (0 : ℚ) < v
      · simp [hp, ih]
        ring
      · simp [hp, ih]

theorem pie_extract_pos (valueCol labelCol : String)
    (rows : List (List (String × CellVal))) :
    ∀ p ∈ (pie_extract valueCol labelCol rows).1, 0 < p.2 := by
  induction rows with
  | nil => simp [pie_extract]
  | cons row rest ih =>
    simp only [pie_extract]
    cases hv : cellFloat ((dictGet row valueCol).getD (.num 0)) with
    | none => exact ih
    | some v =>
      by_cases hp : (0 : ℚ) < v
      · simp only [hp, if_true]
        intro p hpmem
        rcases List.mem_cons.mp hpmem with h | h
        · rw [h]; exact hp
        · exact ih p h
      · simp only [hp, if_false]
        exact ih

theorem pie_extract_filterMap (valueCol labelCol : String)
    (rows : List (List (String × CellVal))) :
    (pie_extract valueCol labelCol rows).1 =
      rows.filterMap (fun row =>
        match cellFloat ((dictGet row valueCol).getD (.num 0)) with
        | none => none
        | some v =>
          if 0 < v then some (cellStr ((dictGet row labelCol).getD (.str "")), v)
          else none) := by
  induction rows with
  | nil => simp [pie_extract]
  | cons row rest ih =>
    simp only [pie_extract, List.filterMap_cons]
    cases hv : cellFloat ((dictGet row valueCol).getD (.num 0)) with
    | none => exact ih
    | some v =>
      by_cases hp : (0 : ℚ) < v
      · simp [hp, ih]
      · simp [hp, ih]

/-- C9: only strictly positive values become slices, the percentage
denominator is exactly the sum of those slice values, slices are sorted
descending by value, each percentage is `value / total * 100`, and on the
values 10, 30, 60 (after the required-columns check passes) the
percentages are 60%, 30%, 10% in sorted order and sum to 100; rows with
value 0 or −5 change neither slices nor total. -/
theorem C9_pie_positive_slices :
    (∀ (valueCol labelCol : String) (rows : List (List (String × CellVal))),
        (pie_extract valueCol labelCol rows).2 =
          ((pie_extract valueCol labelCol rows).1.map Prod.snd).sum) ∧
    (∀ (valueCol labelCol : String) (rows : List (List (String × CellVal))),
        ∀ p ∈ (pie_extract valueCol labelCol rows).1, 0 < p.2) ∧
    (∀ (valueCol labelCol : String) (rows : List (List (String × CellVal))),
        (pie_extract valueCol labelCol rows).1 =
          rows.filterMap (fun row =>
            match cellFloat ((dictGet row valueCol).getD (.num 0)) with
            | none => none
            | some v =>
              if 0 < v then
                some (cellStr ((dictGet row labelCol).getD (.str "")), v)
              else none)) ∧
    (∀ l : List (String × ℚ),
        (pie_sort_desc l).Pairwise (fun a b => b.2 ≤ a.2) ∧
        List.Perm (pie_sort_desc l) l) ∧
    (∀ (slices : List (String × ℚ)) (total : ℚ),
        pie_percentages slices total = slices.map (fun s => s.2 / total * 100)) ∧
    (pie_required_columns_ok "value" "label"
        [[("label", .str "a"), ("value", .num 10)],
         [("label", .str "b"), ("value", .num 30)],
         [("label", .str "c"), ("value", .num 60)],
         [("label", .str "d"), ("value", .num 0)],
         [("label", .str "e"), ("value", .num (-5))]] = true ∧
     pie_extract "value" "label"
        [[("label", .str "a"), ("value", .num 10)],
         [("label", .str "b"), ("value", .num 30)],
         [("label", .str "c"), ("value", .num 60)],
         [("label", .str "d"), ("value", .num 0)],
         [("label", .str "e"), ("value", .num (-5))]] =
       ([("a", 10), ("b", 30), ("c", 60)], 100) ∧
     pie_sort_desc [("a", 10), ("b", 30), ("c", 60)] =
       [("c", 60), ("b", 30), ("a", 10)] ∧
     pie_percentages [("c", 60), ("b", 30), ("a", 10)] 100 = [60, 30, 10] ∧
     ([60, 30, 10] : List ℚ).sum = 100) := by
  refine ⟨pie_extract_total_eq_sum, pie_extract_pos, pie_extract_filterMap,
    ?_, fun _ _ => rfl, ?_, ?_, ?_, ?_, ?_⟩
  · intro l
    constructor
    · have h := pySort_pairwise (fun a b : String × ℚ => decide (b.2 ≤ a.2))
        (fun a b hf => by
          simp only [decide_eq_false_iff_not, not_le] at hf
          simpa using le_of_lt hf)
        (fun a b c hab hbc => by
          simp only [decide_eq_true_eq] at hab hbc ⊢
          exact le_trans hbc hab) l
      exact h.imp (fun hd => by simpa using hd)
    · exact pySort_perm _ l
  · rfl
  · simp [pie_extract, dictGet, cellFloat, cellStr]
    norm_num
  · simp [pie_sort_desc, pySort, pyInsert]
    norm_num
  · simp [pie_percentages]
  · norm_num

/-! ## charts/boxplot.py — BoxplotChart.render, quartile part -/

/-- The per-category statistics block of `BoxplotChart.render`: an empty
value list is skipped (`none`); otherwise the list is sorted ascending and
Q1, the median and Q3 are read at the integer-floor rank indices `n // 4`,
`n // 2` and `3 * n // 4`, with the code's (never-taken for nonempty
lists) fallbacks to the first or last element. -/
def box_quartiles (values : List ℚ) : Option (ℚ × ℚ × ℚ) :=
  match values with
  | [] => none
  | _ :: _ =>
    let sorted := pySort (fun a b => decide (a ≤ b)) values
    let n := sorted.length
    let q1_idx := n / 4
    let q2_idx := n / 2
    let q3_idx := 3 * n / 4
    let q1 := if q1_idx < n then sorted.getD q1_idx 0 else sorted.getD 0 0
    let q2 := if q2_idx < n then sorted.getD q2_idx 0 else sorted.getD 0 0
    let q3 := if q3_idx < n then sorted.getD q3_idx 0 else sorted.getD (n - 1) 0
    some (q1, q2, q3)

/-- C10: for every nonempty value list the statistics are taken from the
ascending sort of the values (a permutation of them), at the floor-rank
indices `⌊n/4⌋`, `⌊n/2⌋` and `⌊3n/4⌋` — no interpolation — and on
`[1,2,3,4,5,6,7,8]` this yields Q1 = 3, median = 5, Q3 = 7. -/
theorem C10_box_quartile_indices :
    (∀ values : List ℚ, values ≠ [] →
      (pySort (fun a b => decide (a ≤ b)) values).Pairwise (· ≤ ·) ∧
      List.Perm (pySort (fun a b => decide (a ≤ b)) values) values ∧
      box_quartiles values =
        some ((pySort (fun a b => decide (a ≤ b)) values).getD
                ((pySort (fun a b => decide (a ≤ b)) values).length / 4) 0,
              (pySort (fun a b => decide (a ≤ b)) values).getD
                ((pySort (fun a b => decide (a ≤ b)) values).length / 2) 0,
              (pySort (fun a b => decide (a ≤ b)) values).getD
                (3 * (pySort (fun a b => decide (a ≤ b)) values).length / 4) 0)) ∧
    box_quartiles [1, 2, 3, 4, 5, 6, 7, 8] = some (3, 5, 7) := by
  constructor
  · intro values hne
    have hperm := pySort_perm (fun a b : ℚ => decide (a ≤ b)) values
    have hsorted := pySort_pairwise (fun a b : ℚ => decide (a ≤ b))
      (fun a b hf => by
        simp only [decide_eq_false_iff_not, not_le] at hf
        simpa using le_of_lt hf)
      (fun a b c hab hbc => by
        simp only [decide_eq_true_eq] at hab hbc ⊢
        exact le_trans hab hbc) values
    refine ⟨hsorted.imp (fun hd => by simpa using hd), hperm, ?_⟩
    have hlen : (pySort (fun a b : ℚ => decide (a ≤ b)) values).length =
        values.length := hperm.length_eq
    have hpos : 0 < values.length := List.length_pos.mpr hne
    cases values with
    | nil => exact absurd rfl hne
    | cons x xs =>
      simp only [box_quartiles]
      have hn : 0 < (pySort (fun a b : ℚ => decide (a ≤ b)) (x :: xs)).length := by
        rw [hlen]; exact hpos
      have h1 : (pySort (fun a b : ℚ => decide (a ≤ b)) (x :: xs)).length / 4 <
          (pySort (fun a b : ℚ => decide (a ≤ b)) (x :: xs)).length := by omega
      have h2 : (pySort (fun a b : ℚ => decide (a ≤ b)) (x :: xs)).length / 2 <
          (pySort (fun a b : ℚ => decide (a ≤ b)) (x :: xs)).length := by omega
      have h3 : 3 * (pySort (fun a b : ℚ => decide (a ≤ b)) (x :: xs)).length / 4 <
          (pySort (fun a b : ℚ => decide (a ≤ b)) (x :: xs)).length := by omega
      simp [h1, h2, h3]
  · simp [box_quartiles, pySort, pyInsert]
